import Mathlib

/-!
Shallow embedding of the error-handling utilities in src/main.ts
(NormalizedError, isError, isNormalizedError, toNormalizedError,
isPromise, noThrow, logError, HttpError), together with proofs of the
specification claims about them.

JavaScript runtime values are modelled by the inductive type JSVal.
Objects carry their enumerable own fields as an association list; the
boolean on vObj records whether the object contains a self-reference
(cycles cannot be represented inductively, so the flag stands for the
one observable consequence: JSON.stringify throws on the value).
A native promise is modelled by vPromise with its eventual settlement
(rejected flag plus the settled value); its prototype supplies callable
then and catch members.
vThenableConst r models the non-native thenable object literal
with a then method that does nothing and a catch method that ignores
its handler argument and returns r. It is an ordinary object with
callable then and catch members, so it satisfies the structural
isPromise predicate without being a native promise; invoking its catch
method — which is what noThrow does on the isPromise branch — simply
yields r.
-/

inductive JSVal where
  | vNull
  | vUndefined
  | vBool (b : Bool)
  | vNum (n : Int)
  | vStr (s : String)
  | vFun (id : Nat)
  | vObj (cyclic : Bool) (fields : List (String × JSVal))
  | vPromise (rejected : Bool) (inner : JSVal)
  | vThenableConst (r : JSVal)

/-- Lookup of an own field in an association list of object fields. -/
def lookupField : List (String × JSVal) → String → Option JSVal
  | [], _ => none
  | (k, v) :: rest, key => if k == key then some v else lookupField rest key

/-- Property lookup: some value when the property exists, none otherwise.
A native promise exposes callable then and catch members from its
prototype. -/
def getField : JSVal → String → Option JSVal
  | JSVal.vObj _ fs, k => lookupField fs k
  | JSVal.vPromise _ _, k =>
      if k == "then" || k == "catch" then some (JSVal.vFun 0) else none
  | JSVal.vThenableConst _, k =>
      if k == "then" || k == "catch" then some (JSVal.vFun 0) else none
  | _, _ => none

/-- The JavaScript "k in value" test. -/
def hasField (v : JSVal) (k : String) : Bool := (getField v k).isSome

/-- Property access value.k: undefined when the property is missing. -/
def accessField (v : JSVal) (k : String) : JSVal :=
  (getField v k).getD JSVal.vUndefined

/-- The JavaScript typeof operator (note typeof null is "object"). -/
def typeofStr : JSVal → String
  | JSVal.vNull => "object"
  | JSVal.vUndefined => "undefined"
  | JSVal.vBool _ => "boolean"
  | JSVal.vNum _ => "number"
  | JSVal.vStr _ => "string"
  | JSVal.vFun _ => "function"
  | JSVal.vObj _ _ => "object"
  | JSVal.vPromise _ _ => "object"
  | JSVal.vThenableConst _ => "object"

/-- JavaScript truthiness, as used by the !!value guards. -/
def truthy : JSVal → Bool
  | JSVal.vNull => false
  | JSVal.vUndefined => false
  | JSVal.vBool b => b
  | JSVal.vNum n => n != 0
  | JSVal.vStr s => s != ""
  | JSVal.vFun _ => true
  | JSVal.vObj _ _ => true
  | JSVal.vPromise _ _ => true
  | JSVal.vThenableConst _ => true

/-- Nullish test, as used by the ?? operator. -/
def isNullish : JSVal → Bool
  | JSVal.vNull => true
  | JSVal.vUndefined => true
  | _ => false

/-- Undefined test, as used by the !== undefined comparison. -/
def isUndefined : JSVal → Bool
  | JSVal.vUndefined => true
  | _ => false

/-- src/main.ts isError: !!value, typeof value is "object", value has a
"message" field of string type and a "stack" field of string type. -/
def isError (value : JSVal) : Bool :=
  truthy value &&
  typeofStr value == "object" &&
  hasField value "message" &&
  typeofStr (accessField value "message") == "string" &&
  hasField value "stack" &&
  typeofStr (accessField value "stack") == "string"

/-- src/main.ts isNormalizedError: isError plus an "originalValue" field
plus value.stack !== undefined. -/
def isNormalizedError (value : JSVal) : Bool :=
  isError value && hasField value "originalValue" &&
  !(isUndefined (accessField value "stack"))

/-- src/main.ts isPromise: !!result, typeof result is "object", result
has callable "then" and "catch" members. -/
def isPromise (result : JSVal) : Bool :=
  truthy result &&
  typeofStr result == "object" &&
  hasField result "then" &&
  typeofStr (accessField result "then") == "function" &&
  hasField result "catch" &&
  typeofStr (accessField result "catch") == "function"

/-- The JavaScript String(value) conversion (engine-rendered source text
of a function is abbreviated to a fixed placeholder). -/
def jsToString : JSVal → String
  | JSVal.vNull => "null"
  | JSVal.vUndefined => "undefined"
  | JSVal.vBool b => cond b "true" "false"
  | JSVal.vNum n => toString n
  | JSVal.vStr s => s
  | JSVal.vFun _ => "function () \x7b \x7d"
  | JSVal.vObj _ _ => "[object Object]"
  | JSVal.vPromise _ _ => "[object Promise]"
  | JSVal.vThenableConst _ => "[object Object]"

/-- Surrounds a string with JSON quotes (escaping inside the string is
not modelled; no claim depends on it). -/
def jsonQuote (s : String) : String := "\"" ++ s ++ "\""

mutual
/-- Whether JSON serialization of the value throws: true exactly when a
self-referencing object occurs inside the value. -/
def cyclicIn : JSVal → Bool
  | JSVal.vObj c fs => c || cyclicInFields fs
  | _ => false

def cyclicInFields : List (String × JSVal) → Bool
  | [] => false
  | (_, v) :: rest => cyclicIn v || cyclicInFields rest
end

mutual
/-- The JSON.stringify result on a non-throwing value: none models the
JSON undefined result (top-level undefined or function); fields whose
serialization is undefined are omitted from an object. -/
def jsonStr : JSVal → Option String
  | JSVal.vNull => some "null"
  | JSVal.vUndefined => none
  | JSVal.vBool b => some (cond b "true" "false")
  | JSVal.vNum n => some (toString n)
  | JSVal.vStr s => some (jsonQuote s)
  | JSVal.vFun _ => none
  | JSVal.vObj _ fs => some ("\x7b" ++ String.intercalate "," (jsonFields fs) ++ "\x7d")
  | JSVal.vPromise _ _ => some "\x7b\x7d"
  | JSVal.vThenableConst _ => some "\x7b\x7d"

def jsonFields : List (String × JSVal) → List String
  | [] => []
  | (k, v) :: rest =>
      match jsonStr v with
      | some s => (jsonQuote k ++ ":" ++ s) :: jsonFields rest
      | none => jsonFields rest
end

/-- JSON.stringify: outer none models a thrown exception (cyclic value),
some none models the undefined result, some (some s) the string s. -/
def JSONstringify (v : JSVal) : Option (Option String) :=
  if cyclicIn v then none else some (jsonStr v)

/-!
The NormalizedError class. Its constructor receives an Error object —
either a genuine Error instance freshly built by toNormalizedError, or
(on the isError branch) an arbitrary error-like value — together with
the optional originalValue argument. The view of the incoming error
that the constructor reads is its message (a string, per the Error
type), its stack (string or undefined, per the optional stack field of
the Error type) and its own identity as a JavaScript value (the
fallback for originalValue).
-/

structure ErrArg where
  message : String
  stack : Option String
  self : JSVal

/-- The NormalizedError object: inherited message, overridden stack and
the originalValue field. -/
structure NormalizedError where
  message : String
  stack : String
  originalValue : JSVal

/-- The NormalizedError constructor: super(error.message); stack is
error.stack ?? this.message; originalValue is originalValue ?? error,
where the ?? fallback fires on the nullish values null and undefined
(an omitted originalValue argument is the value vUndefined). -/
def NormalizedError.construct (error : ErrArg) (originalValue : JSVal) :
    NormalizedError :=
  ⟨error.message,
   error.stack.getD error.message,
   if isNullish originalValue then error.self else originalValue⟩

/-- The string content of a JSVal known to be a string (used to read
the message and stack fields on the isError branch, where both are
strings). -/
def strOf : JSVal → String
  | JSVal.vStr s => s
  | _ => ""

/-- A fresh Error instance, new Error(msg), as a JavaScript value. The
engine-generated stack is passed in (none models an engine that leaves
stack undefined). -/
def mkErrorVal (msg : String) (stk : Option String) : JSVal :=
  JSVal.vObj false
    [("name", JSVal.vStr "Error"),
     ("message", JSVal.vStr msg),
     ("stack", match stk with | some s => JSVal.vStr s | none => JSVal.vUndefined)]

/-- The constructor view of a fresh Error instance. -/
def mkErrArg (msg : String) (stk : Option String) : ErrArg :=
  ⟨msg, stk, mkErrorVal msg stk⟩

/-- src/main.ts toNormalizedError. The parameter gen models the host
engine: the stack it attaches to a fresh Error built from a given
message (none when the engine leaves stack undefined). On the isError
branch the constructor is called with the error-like value itself and
no originalValue argument; otherwise a fresh Error is built whose
message interpolates JSON.stringify(value) when typeof value is
"object" and String(value) otherwise, and when that serialization
throws (cyclic value) the catch branch builds the non-stringifiable
fallback message. -/
def toNormalizedError (gen : String → Option String) (value : JSVal) :
    NormalizedError :=
  if isError value then
    NormalizedError.construct
      ⟨strOf (accessField value "message"),
       some (strOf (accessField value "stack")),
       value⟩
      JSVal.vUndefined
  else
    match
      (if typeofStr value == "object"
       then JSONstringify value
       else some (some (jsToString value))) with
    | some r =>
        let m := "Unexpected value thrown: " ++ r.getD "undefined"
        NormalizedError.construct (mkErrArg m (gen m)) value
    | none =>
        let m := "Unexpected value thrown: non-stringifiable object"
        NormalizedError.construct (mkErrArg m (gen m)) value

/-!
Safe execution. A zero-argument action is observed through its
synchronous outcome: it either returns a value or throws one. The
result of noThrow is either a plain value, a NormalizedError, a
deferred value carrying its eventual settlement, or — when the action
returned a non-promise thenable — the unmodelled result of invoking
that object's own catch method.
-/

inductive ActResult where
  | ret (v : JSVal)
  | thrown (v : JSVal)

inductive Settled where
  | ok (v : JSVal)
  | nerr (e : NormalizedError)

inductive NoThrowRes where
  | val (v : JSVal)
  | nerr (e : NormalizedError)
  | prom (s : Settled)
  | thenable (v : JSVal)

/-- Whether a noThrow result is a deferred value (a promise), as
opposed to a plain value, a NormalizedError or an opaque thenable
result. -/
def isDeferredResult : NoThrowRes → Bool
  | NoThrowRes.prom _ => true
  | _ => false

/-- result.catch(toNormalizedError): on a native promise this yields a
promise resolving to the settled value, or to toNormalizedError of the
rejection reason. On the modelled non-native thenable vThenableConst r
it invokes that object's own catch method, which ignores the handler
and returns the plain value r — so that value, not a deferred one,
becomes the return value of noThrow. Any other thenable runs its own
catch method, which this embedding leaves opaque. -/
def promCatch (gen : String → Option String) : JSVal → NoThrowRes
  | JSVal.vPromise true reason => NoThrowRes.prom (Settled.nerr (toNormalizedError gen reason))
  | JSVal.vPromise false v => NoThrowRes.prom (Settled.ok v)
  | JSVal.vThenableConst r => NoThrowRes.val r
  | v => NoThrowRes.thenable v

/-- src/main.ts noThrow: call the action; a synchronous throw is caught
and normalized; a result satisfying isPromise gets its failure channel
intercepted by promCatch; any other result is returned unchanged. -/
def noThrow (gen : String → Option String) (a : ActResult) : NoThrowRes :=
  match a with
  | ActResult.thrown v => NoThrowRes.nerr (toNormalizedError gen v)
  | ActResult.ret v => if isPromise v then promCatch gen v else NoThrowRes.val v

/-!
Structured logging. The branch on error instanceof Error is nominal:
the input is either an Error instance — whose name and message are
strings and whose stack is an optional string, per the platform Error
type — or any other value. The emitted record is modelled without the
timestamp (real time is outside the embedding).
-/

structure ErrorObj where
  name : String
  message : String
  stack : Option String

inductive LogErrorInput where
  | errInstance (e : ErrorObj)
  | other (v : JSVal)

structure LogRecord where
  context : String
  errorName : String
  errorMessage : String
  errorStack : String
  extraInfo : List (String × JSVal)

/-- The errorObject of logError: an Error instance is used directly,
any other value is wrapped as new Error(String(error)) — a generic
Error whose name is "Error" and whose stack is engine-generated. -/
def logErrorObject (gen : String → Option String) : LogErrorInput → ErrorObj
  | LogErrorInput.errInstance e => e
  | LogErrorInput.other v => ⟨"Error", jsToString v, gen (jsToString v)⟩

/-- src/main.ts logError: build errorObject, then emit one record with
the context, the error sub-record (name, message and stack with their
?? fallback strings) and the extraInfo mapping. The name and message
fields of errorObject are strings per the Error type, so their ??
coalesce operates on a present value. -/
def logError (gen : String → Option String) (error : LogErrorInput)
    (context : String) (extraInfo : List (String × JSVal)) : LogRecord :=
  let errorObject := logErrorObject gen error
  ⟨context,
   (some errorObject.name).getD "No name available",
   (some errorObject.message).getD "No message available",
   errorObject.stack.getD "No stack trace available",
   extraInfo⟩

/-- src/main.ts HttpError: a message plus an HTTP status, stored
unvalidated. -/
structure HttpError where
  status : Int
  message : String

/-!
Concrete values and helper lemmas used across the claim proofs.
-/

/-- Composite (object-like, non-null) values: objects and promises. -/
def isComposite : JSVal → Bool
  | JSVal.vObj _ _ => true
  | JSVal.vPromise _ _ => true
  | JSVal.vThenableConst _ => true
  | _ => false

/-- An engine that attaches no stack to fresh Error instances. -/
def gen0 : String → Option String := fun _ => none

/-- An error-like object with message "x" and stack "tr". -/
def errX : JSVal :=
  JSVal.vObj false [("message", JSVal.vStr "x"), ("stack", JSVal.vStr "tr")]

/-- An error-like object whose message and stack are both empty strings. -/
def emptyErrLike : JSVal :=
  JSVal.vObj false [("message", JSVal.vStr ""), ("stack", JSVal.vStr "")]

/-- A NormalizedError-shaped object. -/
def nerrLike : JSVal :=
  JSVal.vObj false
    [("message", JSVal.vStr "m"), ("stack", JSVal.vStr "s"),
     ("originalValue", JSVal.vNull)]

/-- A self-referencing object (cyclic, so JSON serialization throws). -/
def cyc : JSVal := JSVal.vObj true []

/-- A non-native thenable whose catch method ignores its handler and
returns the number 42. -/
def badThenable : JSVal := JSVal.vThenableConst (JSVal.vNum 42)

theorem accessField_vStr_hasField {v : JSVal} {k s : String}
    (h : accessField v k = JSVal.vStr s) : hasField v k = true := by
  unfold accessField at h
  unfold hasField
  cases hg : getField v k with
  | none => rw [hg] at h; simp at h
  | some w => rfl

theorem stringTyped_iff {v : JSVal} {k : String} :
    (hasField v k = true ∧ typeofStr (accessField v k) = "string") ↔
      ∃ s, accessField v k = JSVal.vStr s := by
  constructor
  · rintro ⟨_, ht⟩
    cases hx : accessField v k <;> rw [hx] at ht <;> simp [typeofStr] at ht ⊢
  · rintro ⟨s, hs⟩
    exact ⟨accessField_vStr_hasField hs, by rw [hs]; rfl⟩

/-- C3: for every error-like input e (non-null object with string
message and string stack fields), toNormalizedError gives back a
NormalizedError whose message is e.message, whose stack is e.stack and
whose originalValue is e itself; the synthetic Unexpected-value-thrown
message construction is bypassed. -/
theorem C3_error_like_preserved (gen : String → Option String) (v : JSVal)
    (h : isError v = true) :
    (toNormalizedError gen v).message = strOf (accessField v "message")
    ∧ (toNormalizedError gen v).stack = strOf (accessField v "stack")
    ∧ (toNormalizedError gen v).originalValue = v := by
  unfold toNormalizedError
  rw [h]
  simp [NormalizedError.construct, isNullish]

/-- C3 witness: the error-like object with message "x" and stack "tr"
is preserved verbatim. -/
theorem C3_witness :
    (toNormalizedError gen0 errX).message = "x"
    ∧ (toNormalizedError gen0 errX).stack = "tr"
    ∧ (toNormalizedError gen0 errX).originalValue = errX :=
  have h := C3_error_like_preserved gen0 errX (by decide)
  ⟨h.1.trans (by decide), h.2.1.trans (by decide), h.2.2⟩

/-- C4: a synchronous non-promise-like result is returned unchanged by
noThrow, and a synchronously thrown value is caught and returned as
toNormalizedError of that value. -/
theorem C4_noThrow_sync (gen : String → Option String) (v w : JSVal)
    (hv : isPromise v = false) :
    noThrow gen (ActResult.ret v) = NoThrowRes.val v
    ∧ noThrow gen (ActResult.thrown w)
        = NoThrowRes.nerr (toNormalizedError gen w) := by
  constructor
  · simp only [noThrow, hv]
    rfl
  · rfl

/-- C4 witness: noThrow of an action returning 42 is 42, and noThrow of
an action throwing an Error with message "x" is the normalization of
that error, whose message is "x". -/
theorem C4_witness :
    noThrow gen0 (ActResult.ret (JSVal.vNum 42))
        = NoThrowRes.val (JSVal.vNum 42)
    ∧ noThrow gen0 (ActResult.thrown errX)
        = NoThrowRes.nerr (toNormalizedError gen0 errX)
    ∧ (toNormalizedError gen0 errX).message = "x" :=
  ⟨(C4_noThrow_sync gen0 (JSVal.vNum 42) errX (by decide)).1,
   (C4_noThrow_sync gen0 (JSVal.vNum 42) errX (by decide)).2,
   by decide⟩

/-- C5 counterexample: the claim fails for a result that satisfies
isPromise without being a native promise. The object literal with a
do-nothing then method and a catch method that ignores its handler and
returns 42 passes isPromise, yet noThrow on an action returning it
yields the plain number 42 — result.catch(toNormalizedError) runs the
object's own catch method — and not a deferred value resolving to the
original success value or a NormalizedError. -/
theorem C5_counterexample :
    isPromise badThenable = true
    ∧ noThrow gen0 (ActResult.ret badThenable)
        = NoThrowRes.val (JSVal.vNum 42)
    ∧ isDeferredResult (noThrow gen0 (ActResult.ret badThenable)) = false :=
  ⟨rfl, rfl, rfl⟩

/-- C5 amended: when the action returns a native deferred value (a
platform promise, whose catch has the standard semantics), noThrow
returns a deferred value that resolves to the original success value on
success and to toNormalizedError of the failure reason on failure; the
failure channel is always converted to a resolution (the Settled type
of the returned promise has no rejected state), so noThrow neither
raises nor yields an unhandled rejection. For a non-native thenable
that merely satisfies isPromise, noThrow instead returns whatever that
object's own catch method yields. -/
theorem C5_noThrow_async (gen : String → Option String) (rej : Bool)
    (inner : JSVal) :
    noThrow gen (ActResult.ret (JSVal.vPromise rej inner)) =
      NoThrowRes.prom
        (cond rej (Settled.nerr (toNormalizedError gen inner))
          (Settled.ok inner)) := by
  cases rej <;> rfl

/-- C8: logError uses an Error instance directly and wraps any other
value in a synthetic generic Error whose message is the plain-text
conversion of the value; the record carries the context, the error
sub-record (with the stack fallback string when the stack is absent)
and the extraInfo mapping verbatim; in particular a plain string input
yields a record whose error message is that string. -/
theorem C8_logError (gen : String → Option String) (e : ErrorObj)
    (v : JSVal) (ctx : String) (ei : List (String × JSVal)) :
    logError gen (LogErrorInput.errInstance e) ctx ei =
      ⟨ctx, e.name, e.message, e.stack.getD "No stack trace available", ei⟩
    ∧ logError gen (LogErrorInput.other v) ctx ei =
      ⟨ctx, "Error", jsToString v,
       (gen (jsToString v)).getD "No stack trace available", ei⟩
    ∧ (logError gen (LogErrorInput.other (JSVal.vStr "plain string")) ctx
        ei).errorMessage = "plain string" :=
  ⟨rfl, rfl, rfl⟩

/-- C10: the No-name-available and No-message-available fallbacks of
logError never substitute for the errorObject fields, for any input:
the errorObject is always an Error instance whose name and message are
strings, so the record copies them unchanged; only the stack fallback
can fire, as the last conjunct exhibits. -/
theorem C10_fallbacks_unreachable (gen : String → Option String)
    (e : LogErrorInput) (ctx : String) (ei : List (String × JSVal)) :
    (logError gen e ctx ei).errorName = (logErrorObject gen e).name
    ∧ (logError gen e ctx ei).errorMessage = (logErrorObject gen e).message
    ∧ (logError gen0 (LogErrorInput.other (JSVal.vNum 1)) "c" []).errorStack
        = "No stack trace available" :=
  ⟨rfl, rfl, rfl⟩


theorem isError_characterization (v : JSVal) :
    isError v = true ↔
      (v ≠ JSVal.vNull ∧ typeofStr v = "object"
        ∧ (∃ m, accessField v "message" = JSVal.vStr m)
        ∧ (∃ t, accessField v "stack" = JSVal.vStr t)) := by
  cases v with
  | vNull => simp [isError, truthy]
  | vUndefined => simp [isError, truthy, typeofStr]
  | vBool b => simp [isError, truthy, typeofStr]
  | vNum n => simp [isError, truthy, typeofStr]
  | vStr s => simp [isError, truthy, typeofStr]
  | vFun id => simp [isError, truthy, typeofStr]
  | vPromise r i =>
      simp [isError, truthy, typeofStr, hasField, getField, accessField]
  | vThenableConst r =>
      simp [isError, truthy, typeofStr, hasField, getField, accessField]
  | vObj c fs =>
      have hL : isError (JSVal.vObj c fs) = true ↔
          ((hasField (JSVal.vObj c fs) "message" = true ∧
            typeofStr (accessField (JSVal.vObj c fs) "message") = "string") ∧
           (hasField (JSVal.vObj c fs) "stack" = true ∧
            typeofStr (accessField (JSVal.vObj c fs) "stack") = "string")) := by
        unfold isError
        simp only [Bool.and_eq_true, beq_iff_eq]
        constructor
        · intro h
          exact ⟨⟨h.1.1.1.2, h.1.1.2⟩, ⟨h.1.2, h.2⟩⟩
        · intro h
          exact ⟨⟨⟨⟨⟨rfl, rfl⟩, h.1.1⟩, h.1.2⟩, h.2.1⟩, h.2.2⟩
      rw [hL, stringTyped_iff, stringTyped_iff]
      constructor
      · rintro ⟨hm, hs⟩
        exact ⟨by simp, rfl, hm, hs⟩
      · rintro ⟨-, -, hm, hs⟩
        exact ⟨hm, hs⟩

/-- C7: isError is true exactly on the non-null object-like values
carrying a string message field and a string stack field, and all three
predicates isError, isNormalizedError and isPromise are false on null,
undefined, every number and every string. -/
theorem C7_predicates (v : JSVal) (n : Int) (s : String) :
    (isError v = true ↔
      (v ≠ JSVal.vNull ∧ typeofStr v = "object"
        ∧ (∃ m, accessField v "message" = JSVal.vStr m)
        ∧ (∃ t, accessField v "stack" = JSVal.vStr t)))
    ∧ isError JSVal.vNull = false
    ∧ isError JSVal.vUndefined = false
    ∧ isError (JSVal.vNum n) = false
    ∧ isError (JSVal.vStr s) = false
    ∧ isNormalizedError JSVal.vNull = false
    ∧ isNormalizedError JSVal.vUndefined = false
    ∧ isNormalizedError (JSVal.vNum n) = false
    ∧ isNormalizedError (JSVal.vStr s) = false
    ∧ isPromise JSVal.vNull = false
    ∧ isPromise JSVal.vUndefined = false
    ∧ isPromise (JSVal.vNum n) = false
    ∧ isPromise (JSVal.vStr s) = false := by
  refine ⟨isError_characterization v, ?_, ?_, ?_, ?_, ?_, ?_, ?_, ?_,
    ?_, ?_, ?_, ?_⟩
  all_goals
    simp [isError, isNormalizedError, isPromise, truthy, typeofStr]

/-- C9: isNormalizedError implies isError, and the stack-is-not-
undefined conjunct is redundant: isNormalizedError holds exactly when
isError holds and the value has an originalValue field. -/
theorem C9_isNormalizedError_isError (v : JSVal) :
    (isNormalizedError v = true → isError v = true)
    ∧ (isNormalizedError v = true ↔
        isError v = true ∧ hasField v "originalValue" = true) := by
  have key : isError v = true → isUndefined (accessField v "stack") = false := by
    intro h
    obtain ⟨-, -, -, ⟨t, ht⟩⟩ := (isError_characterization v).mp h
    rw [ht]; rfl
  have main : isNormalizedError v = true ↔
      isError v = true ∧ hasField v "originalValue" = true := by
    unfold isNormalizedError
    simp only [Bool.and_eq_true, Bool.not_eq_true']
    constructor
    · rintro ⟨⟨h1, h2⟩, -⟩
      exact ⟨h1, h2⟩
    · rintro ⟨h1, h2⟩
      exact ⟨⟨h1, h2⟩, key h1⟩
  exact ⟨fun h => (main.mp h).1, main⟩

/-- C9 witness: a NormalizedError-shaped object satisfies both
predicates. -/
theorem C9_witness : isError nerrLike = true :=
  (C9_isNormalizedError_isError nerrLike).1 (by decide)

/-- C1 counterexample: the claim fails at the input null. The value
null is not error-like and serializes fine, yet the resulting
originalValue is not null: the constructor computes originalValue as
originalValue ?? error, and since null is nullish the fallback replaces
it with the freshly built synthetic Error object. -/
theorem C1_counterexample :
    (toNormalizedError gen0 JSVal.vNull).originalValue ≠ JSVal.vNull := by
  have h : (toNormalizedError gen0 JSVal.vNull).originalValue
      = mkErrorVal "Unexpected value thrown: null" none := rfl
  rw [h]
  simp [mkErrorVal]

/-- C1 amended: for every non-error-like input whose serialization does
not fail, the message is "Unexpected value thrown: " followed by the
serialized (composite input) or plain-text (primitive input)
representation; originalValue is the input itself whenever the input is
not nullish, while for the nullish inputs null and undefined the ??
fallback in the constructor makes originalValue the synthetic Error
object instead. -/
theorem C1_amended_normalization (gen : String → Option String) (v : JSVal)
    (he : isError v = false) (hc : cyclicIn v = false) :
    (toNormalizedError gen v).message =
      "Unexpected value thrown: "
        ++ (if isComposite v then (jsonStr v).getD "undefined" else jsToString v)
    ∧ (isNullish v = false → (toNormalizedError gen v).originalValue = v)
    ∧ (isNullish v = true →
        (toNormalizedError gen v).originalValue =
          mkErrorVal ("Unexpected value thrown: " ++ jsToString v)
            (gen ("Unexpected value thrown: " ++ jsToString v))) := by
  cases v with
  | vNull =>
      refine ⟨?_, fun h => by simp [isNullish] at h, fun _ => ?_⟩ <;>
        simp [toNormalizedError, he, JSONstringify, hc, typeofStr, isComposite,
          NormalizedError.construct, mkErrArg, mkErrorVal, isNullish,
          jsToString, jsonStr]
  | vUndefined =>
      refine ⟨?_, fun h => by simp [isNullish] at h, fun _ => ?_⟩ <;>
        simp [toNormalizedError, he, JSONstringify, hc, typeofStr, isComposite,
          NormalizedError.construct, mkErrArg, mkErrorVal, isNullish,
          jsToString, jsonStr]
  | vBool b =>
      refine ⟨?_, fun _ => ?_, fun h => by simp [isNullish] at h⟩ <;>
        simp [toNormalizedError, he, JSONstringify, hc, typeofStr, isComposite,
          NormalizedError.construct, mkErrArg, mkErrorVal, isNullish,
          jsToString, jsonStr]
  | vNum n =>
      refine ⟨?_, fun _ => ?_, fun h => by simp [isNullish] at h⟩ <;>
        simp [toNormalizedError, he, JSONstringify, hc, typeofStr, isComposite,
          NormalizedError.construct, mkErrArg, mkErrorVal, isNullish,
          jsToString, jsonStr]
  | vStr s =>
      refine ⟨?_, fun _ => ?_, fun h => by simp [isNullish] at h⟩ <;>
        simp [toNormalizedError, he, JSONstringify, hc, typeofStr, isComposite,
          NormalizedError.construct, mkErrArg, mkErrorVal, isNullish,
          jsToString, jsonStr]
  | vFun id =>
      refine ⟨?_, fun _ => ?_, fun h => by simp [isNullish] at h⟩ <;>
        simp [toNormalizedError, he, JSONstringify, hc, typeofStr, isComposite,
          NormalizedError.construct, mkErrArg, mkErrorVal, isNullish,
          jsToString, jsonStr]
  | vObj c fs =>
      refine ⟨?_, fun _ => ?_, fun h => by simp [isNullish] at h⟩ <;>
        simp [toNormalizedError, he, JSONstringify, hc, typeofStr, isComposite,
          NormalizedError.construct, mkErrArg, mkErrorVal, isNullish]
  | vPromise r i =>
      refine ⟨?_, fun _ => ?_, fun h => by simp [isNullish] at h⟩ <;>
        simp [toNormalizedError, he, JSONstringify, hc, typeofStr, isComposite,
          NormalizedError.construct, mkErrArg, mkErrorVal, isNullish,
          jsonStr]
  | vThenableConst r =>
      refine ⟨?_, fun _ => ?_, fun h => by simp [isNullish] at h⟩ <;>
        simp [toNormalizedError, he, JSONstringify, hc, typeofStr, isComposite,
          NormalizedError.construct, mkErrArg, mkErrorVal, isNullish,
          jsonStr]

/-- C1 witness: the number 7 is normalized to the synthetic message
with its plain-text representation, and its originalValue is 7. -/
theorem C1_witness :
    (toNormalizedError gen0 (JSVal.vNum 7)).message
        = "Unexpected value thrown: 7"
    ∧ (toNormalizedError gen0 (JSVal.vNum 7)).originalValue = JSVal.vNum 7 :=
  have h := C1_amended_normalization gen0 (JSVal.vNum 7) (by decide) (by decide)
  ⟨h.1.trans (by decide), h.2.1 (by decide)⟩

/-- C2 counterexample: the claim that the stack of every constructed
NormalizedError is non-empty fails on the error-like input whose
message and stack are both empty strings: the empty stack string is not
nullish, so it is copied in verbatim and the resulting stack is the
empty string. -/
theorem C2_counterexample :
    (toNormalizedError gen0 emptyErrLike).stack = "" := by decide

/-- C2 amended: the stack of every constructed NormalizedError is a
string, never absent: the source stack is copied in when it is present
(non-nullish) and otherwise the stack falls back to the message; on the
error-like path of toNormalizedError the stack is the stack field of
the input. The stack can however be the empty string. -/
theorem C2_amended_stack (gen : String → Option String) (e : ErrArg)
    (o : JSVal) (v : JSVal) (hv : isError v = true) :
    (NormalizedError.construct e o).stack = e.stack.getD e.message
    ∧ (toNormalizedError gen v).stack = strOf (accessField v "stack") := by
  refine ⟨rfl, ?_⟩
  unfold toNormalizedError
  rw [hv]
  simp [NormalizedError.construct]

/-- C2 witness: with an absent stack the constructor falls back to the
message, and on an error-like input the stack is copied in. -/
theorem C2_witness :
    (NormalizedError.construct ⟨"m", none, JSVal.vNull⟩ JSVal.vUndefined).stack
        = "m"
    ∧ (toNormalizedError gen0 errX).stack = "tr" :=
  have h := C2_amended_stack gen0 ⟨"m", none, JSVal.vNull⟩ JSVal.vUndefined
    errX (by decide)
  ⟨h.1.trans (by decide), h.2.trans (by decide)⟩

/-- C6: toNormalizedError is a total function of its input (the
embedding returns a fully defined NormalizedError on every value, so it
never raises), and when serialization of a composite non-error input
fails (a self-referencing structure) the catch branch yields the
message "Unexpected value thrown: non-stringifiable object" with the
original input as originalValue. -/
theorem C6_cyclic_fallback (gen : String → Option String) (v : JSVal)
    (he : isError v = false) (hc : cyclicIn v = true) :
    (toNormalizedError gen v).message
        = "Unexpected value thrown: non-stringifiable object"
    ∧ (toNormalizedError gen v).originalValue = v := by
  cases v with
  | vNull => exact absurd hc (by simp [cyclicIn])
  | vUndefined => exact absurd hc (by simp [cyclicIn])
  | vBool b => exact absurd hc (by simp [cyclicIn])
  | vNum n => exact absurd hc (by simp [cyclicIn])
  | vStr s => exact absurd hc (by simp [cyclicIn])
  | vFun id => exact absurd hc (by simp [cyclicIn])
  | vPromise r i => exact absurd hc (by simp [cyclicIn])
  | vThenableConst r => exact absurd hc (by simp [cyclicIn])
  | vObj c fs =>
      constructor <;>
        simp [toNormalizedError, he, JSONstringify, hc, typeofStr,
          NormalizedError.construct, mkErrArg, mkErrorVal, isNullish]

/-- C6 witness: a self-referencing object gets the non-stringifiable
fallback message and is preserved as originalValue. -/
theorem C6_witness :
    (toNormalizedError gen0 cyc).message
        = "Unexpected value thrown: non-stringifiable object"
    ∧ (toNormalizedError gen0 cyc).originalValue = cyc :=
  C6_cyclic_fallback gen0 cyc (by decide) (by decide)
